import Mathlib

/-!
Verification development for the `ImageCrateLoader` of
`crates/egui_extras/src/loaders/image_loader.rs`: a URI-addressed,
decode-once image cache with a multi-stage format-admission policy.

The loader itself is embedded faithfully from the source file.  Its external
collaborators (the `image` crate's `ImageFormat`, egui's `LoadError`,
`BytesPoll`, `ColorImage` and `decode_animated_image_uri`, and the byte
decoder `load_image_bytes`) are not part of the source under verification;
they are modelled from the specification, and where possible the byte source
and the decoder are left as parameters of `load` so the theorems quantify
over all of their behaviours.

String primitives (splitting, containment, lowercasing, digit parsing) are
implemented by structural recursion on the character list of a `String`, so
that every definition evaluates inside the kernel.
-/

namespace ImageCrateLoader

/-- Split a character list at every occurrence of `c` (model of splitting a
Rust string on a one-character pattern: `n` separators yield `n + 1`
pieces). -/
def split_on_char (c : Char) : List Char → List (List Char)
  | [] => [[]]
  | x :: t =>
    match split_on_char c t with
    | [] => [[]]
    | h :: r => if x == c then [] :: h :: r else (x :: h) :: r

/-- Join character-list pieces with the separator `c` between them (inverse
of `split_on_char`, model of Rust string joining). -/
def intercalate_char (c : Char) : List (List Char) → List Char
  | [] => []
  | [x] => x
  | x :: xs => x ++ c :: intercalate_char c xs

/-- Substring containment on character lists: `pat` occurs as a contiguous
run somewhere in the list. -/
def char_list_contains (pat : List Char) : List Char → Bool
  | [] => pat.isEmpty
  | x :: t => List.isPrefixOf pat (x :: t) || char_list_contains pat t

/-- Model of Rust `str::contains`: substring containment. -/
def str_contains (s pat : String) : Bool :=
  char_list_contains pat.data s.data

/-- Model of Rust `str::starts_with`. -/
def str_starts_with (s pat : String) : Bool :=
  List.isPrefixOf pat.data s.data

/-- Model of Rust `str::to_lowercase` (ASCII range, which covers file
extensions). -/
def to_lower (s : String) : String :=
  ⟨s.data.map Char.toLower⟩

/-- Model of Rust `str::parse::<usize>` on a digit string: `none` on the
empty string or on any non-digit character. -/
def char_list_to_nat (l : List Char) : Option Nat :=
  if l.isEmpty then none
  else l.foldl (fun acc c =>
    acc.bind fun n => if c.isDigit then some (n * 10 + (c.toNat - 48)) else none)
    (some 0)

/-- Modelled from the spec: the external `image` crate's format enumeration
(`image::ImageFormat`).  Only the identity of a few formats matters here. -/
inductive ImageFormat where
  | png
  | jpeg
  | gif
  | webp
  | bmp
  | ico
  | tiff
deriving DecidableEq

/-- Modelled from the spec: `image::ImageFormat::from_extension` — maps a
(lower-case) file extension to a decoder format; unknown extensions (such as
`svg`, which the `image` crate has no decoder for) map to `none`. -/
def ImageFormat.from_extension : String → Option ImageFormat
  | "png" => some .png
  | "jpg" => some .jpeg
  | "jpeg" => some .jpeg
  | "gif" => some .gif
  | "webp" => some .webp
  | "bmp" => some .bmp
  | "ico" => some .ico
  | "tif" => some .tiff
  | "tiff" => some .tiff
  | _ => none

/-- Modelled from the spec: `image::ImageFormat::from_mime_type` — maps a MIME
string to a decoder format; unknown MIME values map to `none`. -/
def ImageFormat.from_mime_type : String → Option ImageFormat
  | "image/png" => some .png
  | "image/jpeg" => some .jpeg
  | "image/gif" => some .gif
  | "image/webp" => some .webp
  | "image/bmp" => some .bmp
  | "image/x-icon" => some .ico
  | "image/tiff" => some .tiff
  | _ => none

/-- Modelled from the spec: `ImageFormat::reading_enabled` — whether read
support for the format is compiled in.  The modelled build enables reading
for every format listed above (matching the source's own unit test, which
expects `png`, `jpeg` and `gif` to be admissible). -/
def ImageFormat.reading_enabled : ImageFormat → Bool := fun _ => true

/-- Modelled from egui's `Color32` (4 bytes per pixel: r, g, b, a). -/
structure Color32 where
  r : Nat
  g : Nat
  b : Nat
  a : Nat
deriving DecidableEq

/-- `size_of::<egui::Color32>()` — a `Color32` is four bytes. -/
def size_of_Color32 : Nat := 4

/-- Modelled from egui's `ColorImage`: an immutable pixel buffer. -/
structure ColorImage where
  pixels : List Color32
deriving DecidableEq

/-- Modelled from the spec: egui's `load::LoadError` taxonomy —
`NotSupported` (rejected purely by extension), `FormatNotSupported` with the
detected identifier attached for diagnostics, and `Loading` for opaque
decode/source failure messages. -/
inductive LoadError where
  | NotSupported
  | FormatNotSupported (detected_format : Option String)
  | Loading (message : String)
deriving DecidableEq

/-- Modelled from the spec: `LoadError::byte_size`, the declared footprint of
a failure record. -/
def LoadError.byte_size : LoadError → Nat
  | .NotSupported => 0
  | .FormatNotSupported d => (d.map String.length).getD 0
  | .Loading m => m.length

/-- Modelled from the spec: egui's `BytesPoll` — outcome of one poll of the
byte-retrieval collaborator: bytes still pending (with an advisory size), or
ready together with an optional MIME string. -/
inductive BytesPoll where
  | Pending (size : Option (Nat × Nat))
  | Ready (bytes : List Nat) (mime : Option String)

/-- Modelled from the spec: egui's `ImagePoll` — outcome of one `load` poll
that did not error: still pending, or a ready decoded image. -/
inductive ImagePoll where
  | Pending (size : Option (Nat × Nat))
  | Ready (image : ColorImage)
deriving DecidableEq

/-- Modelled from the spec: egui's `decode_animated_image_uri` — splits a URI
carrying an animated-frame-index suffix `"#n"` into the base URI and the
frame index; `none` when no such suffix is present. -/
def decode_animated_image_uri (uri : String) : Option (String × Nat) :=
  match split_on_char '#' uri.data with
  | [] => none
  | [_] => none
  | parts =>
    match char_list_to_nat (parts.getLastD []) with
    | some n => some (⟨intercalate_char '#' parts.dropLast⟩, n)
    | none => none

/-- The URI after the frame-index normalization performed at the top of
`load`: `decode_animated_image_uri(uri).map_or(uri, |(uri, _)| uri)`. -/
def norm_uri (uri : String) : String :=
  (decode_animated_image_uri uri).elim uri Prod.fst

/-- Model of Rust `Path::file_name` for the URIs at hand: the last
`/`-separated component, ignoring trailing slashes. -/
def file_name (uri : String) : String :=
  ⟨((split_on_char '/' uri.data).reverse.dropWhile List.isEmpty).headD []⟩

/-- Model of Rust `Path::extension`: the part of the file name after the last
`.`; `none` when the file name has no `.`, or when its only `.` is the
leading character (hidden-file convention). -/
def extension_of (uri : String) : Option String :=
  match split_on_char '.' (file_name uri).data with
  | [] => none
  | [_] => none
  | [[], _] => none
  | parts => some ⟨parts.getLastD []⟩

/-- `is_supported_uri`: extract the extension, lowercase it, and admit when
absent (optimistic default) or when it maps to a format with read support
compiled in. -/
def is_supported_uri (uri : String) : Bool :=
  match (extension_of uri).map to_lower with
  | none => true
  | some ext => (ImageFormat.from_extension ext).any ImageFormat.reading_enabled

/-- The fixed deferral allow-list of ambiguous MIME types from
`is_supported_mime`. -/
def mimes_to_defer : List String :=
  ["application/octet-stream", "application/x-msdownload", "application/force-download"]

/-- `is_supported_mime`: defer (return `true`) when the MIME string contains
any allow-list entry as a substring; otherwise admit iff the MIME maps to a
format with read support compiled in. -/
def is_supported_mime (mime : String) : Bool :=
  if mimes_to_defer.any (fun m => str_contains mime m) then true
  else (ImageFormat.from_mime_type mime).any ImageFormat.reading_enabled

/-- The git-lfs large-file-pointer marker `b"version https://git-lfs"` as a
byte list. -/
def git_lfs_marker : List Nat :=
  "version https://git-lfs".data.map Char.toNat

/-- `type Entry = Result<Arc<ColorImage>, LoadError>` (the `Arc` is modelled
away: the pixel buffer is immutable). -/
abbrev Entry := Except LoadError ColorImage

/-- The cache: a finite map from URI to entry, modelled as an association
list with unique keys (as a `HashMap` guarantees). -/
abbrev Cache := List (String × Entry)

/-- `HashMap::get` on the cache. -/
def cache_get (c : Cache) (uri : String) : Option Entry :=
  List.lookup uri c

/-- `HashMap::insert` on the cache: binds `uri`, replacing any previous
binding. -/
def cache_insert (c : Cache) (uri : String) (e : Entry) : Cache :=
  (uri, e) :: c.filter (fun kv => kv.1 != uri)

/-- Well-formedness invariant of the association-list model: keys are
unique, as they are in a `HashMap`. -/
def cache_wf (c : Cache) : Prop :=
  (c.map Prod.fst).Nodup

/-- `fn forget(&self, uri)`: `self.cache.lock().remove(uri)`. -/
def forget (c : Cache) (uri : String) : Cache :=
  c.filter (fun kv => kv.1 != uri)

/-- `fn forget_all(&self)`: `self.cache.lock().clear()`. -/
def forget_all (_c : Cache) : Cache :=
  []

/-- The per-entry summand of `byte_size`: pixel-buffer footprint for a
success, declared error footprint for a failure. -/
def entry_byte_size : Entry → Nat
  | .ok image => image.pixels.length * size_of_Color32
  | .error err => err.byte_size

/-- `fn byte_size(&self)`: sum the per-entry footprints over all current
cache entries. -/
def byte_size (c : Cache) : Nat :=
  (c.map fun kv => entry_byte_size kv.2).sum

/-- Result of one `load` call in the embedding: the returned
`ImageLoadResult`, the cache state after the call, and whether
`ctx.try_load_bytes` was invoked during the call (instrumentation for the
idempotence/re-retrieval claims). -/
structure LoadResult where
  outcome : Except LoadError ImagePoll
  cache : Cache
  polled_bytes : Bool

/-- The bytes-ready arm of `load` (body of the `Ok(BytesPoll::Ready ..)`
match): MIME gate, git-lfs guard, then decode-and-insert. -/
def load_ready (decode : List Nat → Except LoadError ColorImage)
    (bytes : List Nat) (mime : Option String) (c : Cache) (uri : String) :
    LoadResult :=
  if mime.any (fun m => !is_supported_mime m) then
    ⟨.error (.FormatNotSupported mime), c, true⟩
  else if List.isPrefixOf git_lfs_marker bytes then
    ⟨.error (.FormatNotSupported (some "git-lfs")), c, true⟩
  else
    let result := decode bytes
    ⟨result.map ImagePoll.Ready, cache_insert c uri result, true⟩

/-- `fn load(&self, ctx, uri, _)`.  The byte-retrieval collaborator is
abstracted by `bytes_src` (what `ctx.try_load_bytes(uri)` would answer on
this call) and the decode collaborator `crate::image::load_image_bytes` by
`decode`.  Stage (1) is the extension gate for `file://` URIs; a cache hit is
served without polling; on a miss the byte source is polled and stage (2)
(MIME gate), the git-lfs guard and stage (3) (decode) run in order. -/
def load (decode : List Nat → Except LoadError ColorImage)
    (bytes_src : Except LoadError BytesPoll)
    (c : Cache) (uri : String) : LoadResult :=
  if str_starts_with (norm_uri uri) "file://" && !is_supported_uri (norm_uri uri) then
    ⟨.error .NotSupported, c, false⟩
  else
    match cache_get c (norm_uri uri) with
    | some (.ok image) => ⟨.ok (.Ready image), c, false⟩
    | some (.error err) => ⟨.error err, c, false⟩
    | none =>
      match bytes_src with
      | .ok (.Ready bytes mime) => load_ready decode bytes mime c (norm_uri uri)
      | .ok (.Pending size) => ⟨.ok (.Pending size), c, true⟩
      | .error err => ⟨.error err, c, true⟩

/-- A concrete decoder that always fails (used to instantiate the abstract
decode collaborator in witnesses). -/
def decode_fail : List Nat → Except LoadError ColorImage :=
  fun _ => .error (.Loading "decode failed")

/-- A concrete decoder that always succeeds with a one-pixel image (used to
instantiate the abstract decode collaborator in witnesses). -/
def decode_one : List Nat → Except LoadError ColorImage :=
  fun _ => .ok ⟨[⟨0, 0, 0, 0⟩]⟩

/-! ### Helper lemmas about the cache model -/

theorem cache_get_insert_self (c : Cache) (k : String) (v : Entry) :
    cache_get (cache_insert c k v) k = some v := by
  simp [cache_get, cache_insert, List.lookup]

theorem cache_get_forget_self (c : Cache) (k : String) :
    cache_get (forget c k) k = none := by
  induction c with
  | nil => rfl
  | cons kv t ih =>
    rcases kv with ⟨a, e⟩
    by_cases h : a = k
    · subst h
      simpa [forget, List.filter_cons] using ih
    · have h1 : (a != k) = true := by simp [bne, beq_eq_false_iff_ne.mpr h]
      have h2 : (k == a) = false := beq_eq_false_iff_ne.mpr (Ne.symm h)
      simp only [forget, List.filter_cons, h1, if_true] at ih ⊢
      simpa [cache_get, List.lookup, h2] using ih

theorem forget_of_absent (c : Cache) (k : String)
    (h : cache_get c k = none) : forget c k = c := by
  induction c with
  | nil => rfl
  | cons kv t ih =>
    rcases kv with ⟨a, e⟩
    simp only [cache_get, List.lookup] at h
    by_cases ha : k = a
    · simp [ha] at h
    · have h2 : (k == a) = false := beq_eq_false_iff_ne.mpr ha
      simp only [h2] at h
      have h1 : (a != k) = true := by
        simp [bne, beq_eq_false_iff_ne.mpr (Ne.symm ha)]
      simp only [forget, List.filter_cons, h1, if_true]
      rw [show t.filter (fun kv => kv.1 != k) = forget t k from rfl, ih h]

theorem load_ready_polled (d : List Nat → Except LoadError ColorImage)
    (bytes : List Nat) (mime : Option String) (c : Cache) (uri : String) :
    (load_ready d bytes mime c uri).polled_bytes = true := by
  unfold load_ready
  split
  · rfl
  · split <;> rfl

/-- C9: `is_supported_uri` returns `true` for every URI whose path carries no
extension (optimistic default); and on the concrete examples,
`"https://test.png"`, `"test.jpeg"` and `"http://test.gif"` are
extension-admissible while `"test.svg"` is not. -/
theorem c9_no_extension_admissible (uri : String)
    (h : extension_of uri = none) :
    is_supported_uri uri = true ∧
    is_supported_uri "https://test.png" = true ∧
    is_supported_uri "test.jpeg" = true ∧
    is_supported_uri "http://test.gif" = true ∧
    is_supported_uri "test.svg" = false := by
  refine ⟨?_, by decide, by decide, by decide, by decide⟩
  simp [is_supported_uri, h]

/-- Witness for C9 at the extension-less URI `"file://test"`. -/
theorem c9_witness :
    extension_of "file://test" = none ∧
    (is_supported_uri "file://test" = true ∧
      is_supported_uri "https://test.png" = true ∧
      is_supported_uri "test.jpeg" = true ∧
      is_supported_uri "http://test.gif" = true ∧
      is_supported_uri "test.svg" = false) :=
  ⟨by decide, c9_no_extension_admissible "file://test" (by decide)⟩

/-- C10: extension admissibility is case-insensitive: `is_supported_uri`
lowercases the extracted extension before format lookup, so two URIs whose
extensions agree up to letter case receive the same admission result. -/
theorem c10_extension_case_insensitive (u1 u2 : String)
    (h : (extension_of u1).map to_lower = (extension_of u2).map to_lower) :
    is_supported_uri u1 = is_supported_uri u2 := by
  unfold is_supported_uri
  rw [h]

/-- Witness for C10 at `"test.PNG"` vs `"test.png"`. -/
theorem c10_witness :
    ((extension_of "test.PNG").map to_lower
      = (extension_of "test.png").map to_lower) ∧
    is_supported_uri "test.PNG" = is_supported_uri "test.png" :=
  ⟨by decide, c10_extension_case_insensitive "test.PNG" "test.png" (by decide)⟩

/-- C8: a MIME string containing (as a substring) any entry of the fixed
deferral allow-list is admitted by `is_supported_mime`, so such a MIME value
never by itself rejects content at the MIME stage: with such a MIME,
`load_ready` still attempts the decode and writes its outcome to the
cache (provided the git-lfs guard does not fire). -/
theorem c8_deferred_mime_admitted (mime m : String)
    (hm : m ∈ mimes_to_defer) (hc : str_contains mime m = true)
    (decode : List Nat → Except LoadError ColorImage) (bytes : List Nat)
    (c : Cache) (uri : String)
    (hlfs : List.isPrefixOf git_lfs_marker bytes = false) :
    is_supported_mime mime = true ∧
    (load_ready decode bytes (some mime) c uri).cache
      = cache_insert c uri (decode bytes) := by
  have hany : mimes_to_defer.any (fun x => str_contains mime x) = true :=
    List.any_eq_true.mpr ⟨m, hm, hc⟩
  have hs : is_supported_mime mime = true := by
    simp [is_supported_mime, hany]
  refine ⟨hs, ?_⟩
  simp [load_ready, hs, hlfs]

/-- Witness for C8 at `"application/octet-stream; charset=binary"`. -/
theorem c8_witness :
    "application/octet-stream" ∈ mimes_to_defer ∧
    str_contains "application/octet-stream; charset=binary"
      "application/octet-stream" = true ∧
    List.isPrefixOf git_lfs_marker [0] = false ∧
    (is_supported_mime "application/octet-stream; charset=binary" = true ∧
      (load_ready decode_fail [0]
          (some "application/octet-stream; charset=binary") [] "u").cache
        = cache_insert [] "u" (decode_fail [0])) :=
  ⟨by decide, by decide, by decide,
    c8_deferred_mime_admitted "application/octet-stream; charset=binary"
      "application/octet-stream" (by decide) (by decide)
      decode_fail [0] [] "u" (by decide)⟩

/-- C5: a byte poll that returns Pending, or a byte-source error, writes no
cache entry: the cache after such a `load` call is exactly the cache
before it, for every decoder, URI, advisory size and source error. -/
theorem c5_pending_and_source_error_uncached
    (decode : List Nat → Except LoadError ColorImage) (c : Cache)
    (uri : String) (size : Option (Nat × Nat)) (err : LoadError) :
    (load decode (.ok (.Pending size)) c uri).cache = c ∧
    (load decode (.error err) c uri).cache = c := by
  constructor <;>
  · unfold load
    split
    · rfl
    · split <;> rfl

/-- C6: a `file://` URI whose extension check fails is rejected with
`NotSupported` immediately — unchanged cache, no byte poll; and a URI not
using the `file://` scheme skips the extension gate: on a cache miss it
always reaches the byte poll, whatever its extension. -/
theorem c6_extension_gate
    (decode : List Nat → Except LoadError ColorImage)
    (bytes_src : Except LoadError BytesPoll) (c : Cache) (uri : String)
    (hfile : str_starts_with (norm_uri uri) "file://" = true)
    (hext : is_supported_uri (norm_uri uri) = false) :
    load decode bytes_src c uri = ⟨.error .NotSupported, c, false⟩ ∧
    (∀ uri2, str_starts_with (norm_uri uri2) "file://" = false →
      cache_get c (norm_uri uri2) = none →
      (load decode bytes_src c uri2).polled_bytes = true) := by
  constructor
  · simp [load, hfile, hext]
  · intro uri2 h2 hmiss
    cases bytes_src with
    | ok bp =>
      cases bp with
      | Pending size => simp [load, h2, hmiss]
      | Ready bytes mime => simp [load, h2, hmiss, load_ready_polled]
    | error e => simp [load, h2, hmiss]

/-- Witness for C6 at `"file://test.svg"`. -/
theorem c6_witness :
    str_starts_with (norm_uri "file://test.svg") "file://" = true ∧
    is_supported_uri (norm_uri "file://test.svg") = false ∧
    (load decode_one (.ok (.Pending none)) [] "file://test.svg"
        = ⟨.error .NotSupported, [], false⟩ ∧
      (∀ uri2, str_starts_with (norm_uri uri2) "file://" = false →
        cache_get ([] : Cache) (norm_uri uri2) = none →
        (load decode_one (.ok (.Pending none)) [] uri2).polled_bytes = true)) :=
  ⟨by decide, by decide,
    c6_extension_gate decode_one (.ok (.Pending none)) [] "file://test.svg"
      (by decide) (by decide)⟩

theorem cache_get_eq_none_of_not_mem (t : Cache) (k : String)
    (h : k ∉ t.map Prod.fst) : cache_get t k = none := by
  induction t with
  | nil => rfl
  | cons kv t ih =>
    simp only [List.map_cons, List.mem_cons] at h
    push_neg at h
    have h2 : (k == kv.1) = false := beq_eq_false_iff_ne.mpr h.1
    simpa [cache_get, List.lookup, h2] using ih h.2

theorem byte_size_eq_forget_add (c : Cache) (k : String) (h : cache_wf c) :
    byte_size c
      = (cache_get c k).elim 0 entry_byte_size + byte_size (forget c k) := by
  induction c with
  | nil => rfl
  | cons kv t ih =>
    rcases kv with ⟨a, e⟩
    have hna : a ∉ t.map Prod.fst := (List.nodup_cons.mp h).1
    have hwf : cache_wf t := (List.nodup_cons.mp h).2
    by_cases hk : k = a
    · subst hk
      have hnone : cache_get t k = none := cache_get_eq_none_of_not_mem t k hna
      have hforget : forget t k = t := forget_of_absent t k hnone
      simp only [forget, List.filter_cons, bne_self_eq_false, if_false]
      rw [show t.filter (fun kv => kv.1 != k) = forget t k from rfl, hforget]
      simp [byte_size, cache_get, List.lookup]
    · have h2 : (k == a) = false := beq_eq_false_iff_ne.mpr hk
      have h1 : (a != k) = true := by
        simp [bne, beq_eq_false_iff_ne.mpr (Ne.symm hk)]
      have ihh := ih hwf
      simp only [byte_size, forget, List.map_cons, List.sum_cons, cache_get,
        List.lookup, h2, List.filter_cons, h1, if_true] at ihh ⊢
      omega

/-- C4: `forget uri` removes the cache entry for `uri` when present, is the
identity (no error, no change) when absent, and after forgetting the
(normalized) URI a subsequent `load` reaches the byte poll again —
`try_load_bytes` is re-invoked — for any URI that passes the extension
gate, whatever the byte source answers. -/
theorem c4_forget_then_reload (c : Cache) (uri : String)
    (decode : List Nat → Except LoadError ColorImage)
    (bytes_src : Except LoadError BytesPoll)
    (hgate : (str_starts_with (norm_uri uri) "file://"
        && !is_supported_uri (norm_uri uri)) = false) :
    cache_get (forget c uri) uri = none ∧
    (cache_get c uri = none → forget c uri = c) ∧
    (load decode bytes_src (forget c (norm_uri uri)) uri).polled_bytes = true := by
  refine ⟨cache_get_forget_self c uri, forget_of_absent c uri, ?_⟩
  have hmiss := cache_get_forget_self c (norm_uri uri)
  cases bytes_src with
  | ok bp =>
    cases bp with
    | Pending size => simp [load, hgate, hmiss]
    | Ready bytes mime => simp [load, hgate, hmiss, load_ready_polled]
  | error e => simp [load, hgate, hmiss]

/-- Witness for C4 at a one-entry cache and the URI `"u"`. -/
theorem c4_witness :
    ((str_starts_with (norm_uri "u") "file://"
        && !is_supported_uri (norm_uri "u")) = false) ∧
    (cache_get (forget [("u", Except.error LoadError.NotSupported)] "u") "u"
        = none ∧
      (cache_get [("u", Except.error LoadError.NotSupported)] "u" = none →
        forget [("u", Except.error LoadError.NotSupported)] "u"
          = [("u", Except.error LoadError.NotSupported)]) ∧
      (load decode_one (.ok (.Pending none))
          (forget [("u", Except.error LoadError.NotSupported)] (norm_uri "u"))
          "u").polled_bytes = true) :=
  ⟨by decide,
    c4_forget_then_reload [("u", Except.error LoadError.NotSupported)] "u"
      decode_one (.ok (.Pending none)) (by decide)⟩

/-- C7: `byte_size` is the sum of the per-entry footprints (pixel-buffer
bytes for successes, declared error footprint for failures): it is `0`
after `forget_all`, an insert replaces the evicted footprint of the key by
the new entry's footprint, and (on a well-formed cache) an eviction removes
exactly the evicted entry's footprint. -/
theorem c7_byte_size_accounting (c : Cache) (k : String) (v : Entry)
    (h : cache_wf c) :
    byte_size (forget_all c) = 0 ∧
    byte_size (cache_insert c k v)
      = entry_byte_size v + byte_size (forget c k) ∧
    byte_size c
      = (cache_get c k).elim 0 entry_byte_size + byte_size (forget c k) := by
  refine ⟨rfl, ?_, byte_size_eq_forget_add c k h⟩
  simp [byte_size, cache_insert, forget]

/-- Witness for C7 at a one-entry cache. -/
theorem c7_witness :
    cache_wf [("a", Except.ok (ColorImage.mk [⟨0, 0, 0, 0⟩]))] ∧
    (byte_size (forget_all [("a", Except.ok (ColorImage.mk [⟨0, 0, 0, 0⟩]))])
        = 0 ∧
      byte_size (cache_insert [("a", Except.ok (ColorImage.mk [⟨0, 0, 0, 0⟩]))]
          "a" (Except.error (LoadError.Loading "e")))
        = entry_byte_size (Except.error (LoadError.Loading "e"))
          + byte_size (forget [("a", Except.ok (ColorImage.mk [⟨0, 0, 0, 0⟩]))] "a") ∧
      byte_size [("a", Except.ok (ColorImage.mk [⟨0, 0, 0, 0⟩]))]
        = (cache_get [("a", Except.ok (ColorImage.mk [⟨0, 0, 0, 0⟩]))] "a").elim 0
            entry_byte_size
          + byte_size (forget [("a", Except.ok (ColorImage.mk [⟨0, 0, 0, 0⟩]))] "a")) :=
  ⟨by simp [cache_wf],
    c7_byte_size_accounting [("a", Except.ok (ColorImage.mk [⟨0, 0, 0, 0⟩]))]
      "a" (Except.error (LoadError.Loading "e")) (by simp [cache_wf])⟩

/-- C1 counterexample: at the concrete input (empty cache, URI `"u"`, bytes
ready with the unsupported MIME `"text/html"`), `load` returns the
"format not supported" failure carrying that MIME — but the cache stays
empty: no Failure entry is stored for the URI, refuting the claim's
storage conjunct. -/
theorem c1_counterexample :
    (load decode_one (.ok (.Ready [0] (some "text/html"))) [] "u").outcome
      = .error (.FormatNotSupported (some "text/html")) ∧
    (load decode_one (.ok (.Ready [0] (some "text/html"))) [] "u").cache
      = [] :=
  ⟨rfl, rfl⟩

/-- C1 (amended): when the byte poll is Ready with a MIME string present and
`is_supported_mime` returns `false`, `load` returns the "format not
supported" failure carrying that MIME string — but writes no cache entry:
the cache is returned unchanged (the failure is not memoized). -/
theorem c1_mime_reject_uncached
    (decode : List Nat → Except LoadError ColorImage) (bytes : List Nat)
    (m : String) (c : Cache) (uri : String)
    (hgate : (str_starts_with (norm_uri uri) "file://"
        && !is_supported_uri (norm_uri uri)) = false)
    (hmiss : cache_get c (norm_uri uri) = none)
    (hm : is_supported_mime m = false) :
    load decode (.ok (.Ready bytes (some m))) c uri
      = ⟨.error (.FormatNotSupported (some m)), c, true⟩ := by
  simp [load, hgate, hmiss, load_ready, hm]

/-- Witness for the amended C1 at MIME `"text/html"`. -/
theorem c1_witness :
    ((str_starts_with (norm_uri "u") "file://"
        && !is_supported_uri (norm_uri "u")) = false) ∧
    cache_get ([] : Cache) (norm_uri "u") = none ∧
    is_supported_mime "text/html" = false ∧
    load decode_one (.ok (.Ready [0] (some "text/html"))) [] "u"
      = ⟨.error (.FormatNotSupported (some "text/html")), [], true⟩ :=
  ⟨by decide, rfl, by decide,
    c1_mime_reject_uncached decode_one [0] "text/html" [] "u"
      (by decide) rfl (by decide)⟩

/-- C3 counterexample: at the concrete input (empty cache, URI `"u"`, bytes
equal to the git-lfs pointer marker, no MIME), `load` returns the
format-not-supported failure tagged `"git-lfs"` — but the cache stays
empty: the failure is not stored, refuting the claim's storage conjunct. -/
theorem c3_counterexample :
    (load decode_one (.ok (.Ready git_lfs_marker none)) [] "u").outcome
      = .error (.FormatNotSupported (some "git-lfs")) ∧
    (load decode_one (.ok (.Ready git_lfs_marker none)) [] "u").cache
      = [] :=
  ⟨rfl, rfl⟩

/-- C3 (amended): when the byte poll is Ready with a buffer beginning with
the git-lfs pointer marker, `load` yields a failure classified as
format-not-supported regardless of the accompanying MIME value (tagged
`"git-lfs"` whenever the MIME gate does not fire first), and returns it
without writing any cache entry. -/
theorem c3_lfs_reject_uncached
    (decode : List Nat → Except LoadError ColorImage) (bytes : List Nat)
    (mime : Option String) (c : Cache) (uri : String)
    (hgate : (str_starts_with (norm_uri uri) "file://"
        && !is_supported_uri (norm_uri uri)) = false)
    (hmiss : cache_get c (norm_uri uri) = none)
    (hlfs : List.isPrefixOf git_lfs_marker bytes = true) :
    (∃ t, (load decode (.ok (.Ready bytes mime)) c uri).outcome
        = .error (.FormatNotSupported t)) ∧
    (load decode (.ok (.Ready bytes mime)) c uri).cache = c ∧
    (mime.any (fun m => !is_supported_mime m) = false →
      (load decode (.ok (.Ready bytes mime)) c uri).outcome
        = .error (.FormatNotSupported (some "git-lfs"))) := by
  have hload : load decode (.ok (.Ready bytes mime)) c uri
      = load_ready decode bytes mime c (norm_uri uri) := by
    simp [load, hgate, hmiss]
  cases hgm : mime.any (fun m => !is_supported_mime m) with
  | false =>
    have hr : load_ready decode bytes mime c (norm_uri uri)
        = ⟨.error (.FormatNotSupported (some "git-lfs")), c, true⟩ := by
      simp [load_ready, hgm, hlfs]
    rw [hload, hr]
    exact ⟨⟨some "git-lfs", rfl⟩, rfl, fun _ => rfl⟩
  | true =>
    have hr : load_ready decode bytes mime c (norm_uri uri)
        = ⟨.error (.FormatNotSupported mime), c, true⟩ := by
      simp [load_ready, hgm]
    rw [hload, hr]
    refine ⟨⟨mime, rfl⟩, rfl, ?_⟩
    intro hcontra
    simp at hcontra

/-- Witness for the amended C3 at the marker buffer itself, with no MIME. -/
theorem c3_witness :
    ((str_starts_with (norm_uri "u") "file://"
        && !is_supported_uri (norm_uri "u")) = false) ∧
    cache_get ([] : Cache) (norm_uri "u") = none ∧
    List.isPrefixOf git_lfs_marker git_lfs_marker = true ∧
    ((∃ t, (load decode_one (.ok (.Ready git_lfs_marker none)) [] "u").outcome
        = .error (.FormatNotSupported t)) ∧
      (load decode_one (.ok (.Ready git_lfs_marker none)) [] "u").cache = [] ∧
      ((none : Option String).any (fun m => !is_supported_mime m) = false →
        (load decode_one (.ok (.Ready git_lfs_marker none)) [] "u").outcome
          = .error (.FormatNotSupported (some "git-lfs")))) :=
  ⟨by decide, rfl, by decide,
    c3_lfs_reject_uncached decode_one git_lfs_marker none [] "u"
      (by decide) rfl (by decide)⟩

/-- C2 counterexample: the first `load` of `"u"` (bytes ready with the
unsupported MIME `"text/html"`) returns a Failure outcome, yet a second
`load` of the same URI against the resulting cache polls the byte source
again (`polled_bytes = true`) — refuting "triggers no second call to
try_load_bytes" for Failure outcomes that were produced by the MIME gate. -/
theorem c2_counterexample :
    (load decode_one (.ok (.Ready [0] (some "text/html"))) [] "u").outcome
      = .error (.FormatNotSupported (some "text/html")) ∧
    (load decode_one (.ok (.Ready [0] (some "text/html")))
        (load decode_one (.ok (.Ready [0] (some "text/html"))) [] "u").cache
        "u").polled_bytes = true :=
  ⟨rfl, rfl⟩

/-- C2 (amended): idempotence holds for cached outcomes: whenever a `load`
call leaves a cache entry for the (normalized) URI — i.e. after a Success
or a cached decode Failure — a second `load` of that URI (with any decoder
and any byte-source answer) returns an outcome identical to the first,
does not invoke the byte source, and leaves the cache unchanged.
Failures the code does not cache (MIME-gate, git-lfs, source errors)
re-attempt byte retrieval instead. -/
theorem c2_cached_idempotent
    (d d' : List Nat → Except LoadError ColorImage)
    (b b' : Except LoadError BytesPoll) (c : Cache) (uri : String)
    (h : (cache_get (load d b c uri).cache (norm_uri uri)).isSome = true) :
    (load d' b' (load d b c uri).cache uri).outcome
      = (load d b c uri).outcome ∧
    (load d' b' (load d b c uri).cache uri).polled_bytes = false ∧
    (load d' b' (load d b c uri).cache uri).cache = (load d b c uri).cache := by
  cases hg : (str_starts_with (norm_uri uri) "file://"
      && !is_supported_uri (norm_uri uri)) with
  | true => simp [load, hg]
  | false =>
    cases hc : cache_get c (norm_uri uri) with
    | some e =>
      cases e with
      | ok img => simp [load, hg, hc]
      | error err => simp [load, hg, hc]
    | none =>
      cases b with
      | error err => simp [load, hg, hc] at h
      | ok bp =>
        cases bp with
        | Pending s => simp [load, hg, hc] at h
        | Ready bytes mime =>
          cases hgm : mime.any (fun m => !is_supported_mime m) with
          | true => simp [load, load_ready, hg, hc, hgm] at h
          | false =>
            cases hlfs : List.isPrefixOf git_lfs_marker bytes with
            | true => simp [load, load_ready, hg, hc, hgm, hlfs] at h
            | false =>
              have h1 : load d (.ok (.Ready bytes mime)) c uri
                  = ⟨(d bytes).map ImagePoll.Ready,
                      cache_insert c (norm_uri uri) (d bytes), true⟩ := by
                simp [load, load_ready, hg, hc, hgm, hlfs]
              rw [h1]
              have h2 : cache_get
                    (cache_insert c (norm_uri uri) (d bytes)) (norm_uri uri)
                  = some (d bytes) :=
                cache_get_insert_self c (norm_uri uri) (d bytes)
              cases hd : d bytes with
              | ok img =>
                rw [hd] at h2
                simp [load, hg, h2, Except.map]
              | error err =>
                rw [hd] at h2
                simp [load, hg, h2, Except.map]

/-- Witness for the amended C2: a successful decode is cached, and the
second `load` serves it without polling. -/
theorem c2_witness :
    (cache_get (load decode_one (.ok (.Ready [0] none)) [] "u").cache
        (norm_uri "u")).isSome = true ∧
    ((load decode_fail (.error (LoadError.Loading "net"))
          (load decode_one (.ok (.Ready [0] none)) [] "u").cache "u").outcome
        = (load decode_one (.ok (.Ready [0] none)) [] "u").outcome ∧
      (load decode_fail (.error (LoadError.Loading "net"))
          (load decode_one (.ok (.Ready [0] none)) [] "u").cache "u").polled_bytes
        = false ∧
      (load decode_fail (.error (LoadError.Loading "net"))
          (load decode_one (.ok (.Ready [0] none)) [] "u").cache "u").cache
        = (load decode_one (.ok (.Ready [0] none)) [] "u").cache) :=
  ⟨by decide,
    c2_cached_idempotent decode_one decode_fail
      (.ok (.Ready [0] none)) (.error (LoadError.Loading "net")) [] "u"
      (by decide)⟩

end ImageCrateLoader
